import Mathlib

/-!
Verification of the `srvsrv` repository core: the `syncq` concurrent queue
(`src/syncq/syncq.go`), the `ctxerr` error-annotation helper it uses for
cancellation errors, and the `buffer` ring buffer (`src/buffer/ring.go`).

The Go code is shallowly embedded as follows.

* A `context.Context`, as consumed by the queue, is a record of whether its
  `Done()` channel is closed, which kind its `Err()` is, and the `ctxlog`
  attributes it carries.
* Go `error` values reachable here form the inductive `GoErr`.
* The queue's channels become flags and lists in a `Queue` state record:
  `pushClosed`/`shutdown` say whether `q.pushc`/`q.shutdown` are closed,
  `done` says the dispatch goroutine `goqueue` has exited (so `q.done` and
  `q.popc` are closed), `actorPush` is the actor's local `pushc != nil`,
  `pending` is the element armed on `popc` (`next` with `popc != nil`),
  `backlog` is the actor's `queue` slice, and `senders` is the FIFO list of
  elements offered by `Push` calls currently blocked sending on `q.pushc`.
  The `int64` counters `size` and `total` are modelled as `Int` (their
  overflow is unreachable and irrelevant to the claims).
* The post-`select` bookkeeping at the bottom of `goqueue`'s loop is
  `postSwitch`; `settle` runs the actor until it blocks, for the quiescent
  (one-call-at-a-time) view of the API used by the sequential claims.
* `Push`/`Pop` are Go `select` statements, which pick nondeterministically
  among ready cases, so their embeddings return the *list* of possible
  (result, next state) outcomes; a singleton list means the call is
  deterministic in that state.
* Genuinely concurrent executions are modelled by the labelled small-step
  relation `Step`/`Steps`, whose labels are the individual channel
  rendezvous of the program (a `Push` registering as a blocked sender, the
  actor accepting it, a `Pop` taking the armed element, `closeOnce`
  receiving-and-discarding a blocked sender's element or closing `pushc`,
  the shutdown signal, the actor observing close or shutdown).
* `uint32` arithmetic in the ring buffer is `Nat` with explicit `% 2 ^ 32`;
  the out-of-range slice write that Go punishes with a panic is an `Option`
  result (`none` = crash), as is `Push` after `Close` in the queue
  (`PushResult.panicked`).
-/

namespace srvsrv

/-- Models `context.Context` as the queue consumes it: `cancelled` is
whether `ctx.Done()` is already closed, `deadline` is whether `ctx.Err()`
is `DeadlineExceeded` rather than `Canceled`, `attrs` are the diagnostic
attributes returned by `ctxlog.GetAttrs(ctx)`. -/
structure Ctx where
  cancelled : Bool
  deadline : Bool
  attrs : List (String × String)
deriving DecidableEq, Repr

/-- The Go `error` values reachable in this code: the nil interface value,
the two context errors, the `ErrQueueShutdown` sentinel from `errors.New`,
and a `*ctxerr.Error` with its `Op`, `Msg`, `Attrs` and wrapped cause
(`nil` when nothing was wrapped). -/
inductive GoErr where
  | nil
  | canceled
  | deadlineExceeded
  | queueShutdown
  | ctxError (op : String) (msg : String)
      (attrs : List (String × String)) (cause : GoErr)
deriving DecidableEq, Repr

/-- Models `ctx.Err()` for a context whose `Done()` channel is closed. -/
def Ctx.err (c : Ctx) : GoErr :=
  if c.deadline then .deadlineExceeded else .canceled

namespace ctxerr

/-- One argument of the variadic `ctxerr.E` / `newError`: an `Op`, a
message string, a `context.Context`, or an `error`. -/
inductive Arg where
  | op (o : String)
  | msg (m : String)
  | ctx (c : Ctx)
  | err (e : GoErr)
deriving DecidableEq, Repr

/-- Models `ctxerr.Error` (its diagnostic fields; the captured call stack
is outside the embedding). -/
structure Error where
  Op : String
  Msg : String
  Attrs : List (String × String)
  Err : GoErr
deriving DecidableEq, Repr

/-- Models `newError` in `ctxerr`: fold over the arguments, an `Op` sets
`e.Op`, a context sets `e.Attrs` from `ctxlog.GetAttrs`, an error sets
`e.Err`, a string sets `e.Msg`. -/
def newError (args : List Arg) : Error :=
  args.foldl
    (fun e a =>
      match a with
      | .op o => { e with Op := o }
      | .msg m => { e with Msg := m }
      | .ctx c => { e with Attrs := c.attrs }
      | .err x => { e with Err := x })
    ⟨"", "", [], .nil⟩

/-- Models `ctxerr.E`: build the `*Error` from the arguments and return it
as a Go `error` value. -/
def E (args : List Arg) : GoErr :=
  let e := newError args
  .ctxError e.Op e.Msg e.Attrs e.Err

end ctxerr

namespace syncq

/-- Models `syncq.ErrQueueShutdown`. -/
def ErrQueueShutdown : GoErr := .queueShutdown

/-- State of a `syncq.Queue[E]` together with its dispatch goroutine
`goqueue` and the `Push` calls blocked on `q.pushc`. See the module
docstring for the field-by-field correspondence with the Go code. -/
structure Queue (E : Type) where
  backlog : List E
  pending : Option E
  senders : List E
  actorPush : Bool
  pushClosed : Bool
  shutdown : Bool
  done : Bool
  size : Int
  total : Int
deriving DecidableEq, Repr

/-- Models `syncq.New`: fresh channels, counters at zero, the actor
started and watching `pushc`. -/
def New (E : Type) : Queue E :=
  { backlog := [], pending := none, senders := [], actorPush := true,
    pushClosed := false, shutdown := false, done := false,
    size := 0, total := 0 }

/-- The bookkeeping `goqueue` performs after every `select` event
(`syncq.go` lines 159-173): compute `empty`, `closed`, `popReady`; exit
when the input side is closed and nothing is left; otherwise arm the head
of the backlog on `popc` when no delivery is in flight. -/
def postSwitch {E : Type} (q : Queue E) : Queue E :=
  let empty := q.backlog.isEmpty && q.pending.isNone
  let closed := !q.actorPush
  if closed && empty then { q with done := true }
  else if q.pending.isNone then
    match q.backlog with
    | [] => q
    | x :: rest => { q with pending := some x, backlog := rest }
  else q

/-- Runs `goqueue` until it blocks, assuming no `Push` call is in flight
(`senders = []`): the actor reacts to a raised shutdown signal by
returning (so `done` and `popc` get closed), and to a closed `pushc` by
setting its local `pushc` to nil and running the post-`select`
bookkeeping. This is the quiescent view used by the sequential API
model. -/
def settle {E : Type} (q : Queue E) : Queue E :=
  if q.done then q
  else if q.shutdown then { q with done := true }
  else if q.pushClosed && q.actorPush then
    postSwitch { q with actorPush := false }
  else q

/-- Models `Queue.Size`: plain atomic loads of the two counters. It never
blocks; in the embedding it is a pure projection of the state. -/
def Queue.Size {E : Type} (q : Queue E) : Int × Int :=
  (q.size, q.total)

/-- Result of one `Push` call: `ok` is a nil error, `err` a returned
error, `panicked` the runtime panic from sending on the closed
`q.pushc`. -/
inductive PushResult where
  | ok
  | err (e : GoErr)
  | panicked
deriving DecidableEq, Repr

/-- Models `Queue.Push` at quiescence: the three `select` cases in source
order. `<-ctx.Done()` is ready when the context is cancelled and returns
`ctxerr.E(ctx, ctx.Err())`; `<-q.shutdown` is ready when the shutdown
channel is closed and returns `ErrQueueShutdown`; `q.pushc <- e` panics
when `pushc` is closed, and otherwise rendezvouses with the live actor,
which appends `e` to the backlog, after which the caller increments
`total` and `size`. The result is the list of possible outcomes (Go
`select` chooses nondeterministically among ready cases). -/
def Queue.Push {E : Type} (q : Queue E) (ctx : Ctx) (e : E) :
    List (PushResult × Queue E) :=
  (if ctx.cancelled then
    [(.err (ctxerr.E [.ctx ctx, .err ctx.err]), q)]
  else []) ++
  (if q.shutdown then [(.err ErrQueueShutdown, q)] else []) ++
  (if q.pushClosed then [(.panicked, q)]
  else if q.actorPush && !q.done then
    [(.ok,
      settle (postSwitch
        { q with backlog := q.backlog ++ [e],
                 size := q.size + 1, total := q.total + 1 }))]
  else [])

/-- Models `Queue.Pop` at quiescence: the three `select` cases in source
order. Receiving from `q.popc` is ready either because the actor has
exited (the channel is closed, yielding `(zero, false)` with no counter
change) or because the actor has armed an element, which the caller takes,
decrementing `size`; `<-q.shutdown` and `<-ctx.Done()` both yield
`(zero, false)`. The result is the list of possible outcomes. -/
def Queue.Pop {E : Type} [Inhabited E] (q : Queue E) (ctx : Ctx) :
    List ((E × Bool) × Queue E) :=
  (if q.done then [((default, false), q)]
  else
    match q.pending with
    | some v =>
      [((v, true),
        settle (postSwitch { q with pending := none, size := q.size - 1 }))]
    | none => []) ++
  (if q.shutdown then [((default, false), q)] else []) ++
  (if ctx.cancelled then [((default, false), q)] else [])

/-- Models `closeOnce(q.pushc)`, i.e. `Queue.Close`, at quiescence. The
`select` inside `closeOnce` takes its receive case when it is ready:
either `pushc` is already closed (return, no effect) or a `Push` call is
blocked sending on it, in which case `closeOnce` receives that element —
the blocked `Push` completes successfully and bumps both counters, the
element is discarded, and the channel is NOT closed. Only when the receive
is not ready does the `default` branch close the channel, which the actor
then observes. -/
def Queue.Close {E : Type} (q : Queue E) : Queue E :=
  if q.pushClosed then q
  else
    match q.senders with
    | v :: rest =>
      let _ := v
      { q with senders := rest, size := q.size + 1, total := q.total + 1 }
    | [] => settle { q with pushClosed := true }

/-- Models `closeOnce(q.shutdown)`, i.e. `Queue.Shutdown`, at quiescence:
nothing ever sends on `q.shutdown`, so `closeOnce`'s receive is ready only
when the channel is already closed; otherwise it closes the channel and
the actor reacts by exiting. -/
def Queue.Shutdown {E : Type} (q : Queue E) : Queue E :=
  if q.shutdown then q else settle { q with shutdown := true }

/-- Models `Queue.WaitEmpty` at quiescence: call `Close`, then `select`
between `<-q.done` (return true) and `<-ctx.Done()` (call `Shutdown`,
wait for `<-q.done`, return false). `none` models the call blocking
forever (neither channel ever ready). -/
def Queue.WaitEmpty {E : Type} (q : Queue E) (ctx : Ctx) :
    Option (Bool × Queue E) :=
  let q1 := q.Close
  if q1.done then some (true, q1)
  else if ctx.cancelled then
    let q2 := q1.Shutdown
    if q2.done then some (false, q2) else none
  else none

/-- A context that is not cancelled (and carries no attributes). -/
def liveCtx : Ctx := ⟨false, false, []⟩

/-- Runs a list of `Push` calls with a live context, succeeding only if
each call has the successful rendezvous as its unique possible outcome. -/
def pushesFrom {E : Type} (q : Queue E) : List E → Option (Queue E)
  | [] => some q
  | x :: xs =>
    match q.Push liveCtx x with
    | [(.ok, q1)] => pushesFrom q1 xs
    | _ => none

/-- Runs `n` `Pop` calls with a live context, succeeding only if each call
has a unique possible outcome, and collecting the returned pairs. -/
def popsFrom {E : Type} [Inhabited E] (q : Queue E) :
    Nat → Option (List (E × Bool) × Queue E)
  | 0 => some ([], q)
  | n + 1 =>
    match q.Pop liveCtx with
    | [(r, q1)] =>
      match popsFrom q1 n with
      | some (rs, qf) => some (r :: rs, qf)
      | none => none
    | _ => none

/-- One atomic channel event of a concurrent execution of the queue:

* `offer v` — a `Push(ctx, v)` call with a live context reaches its
  `select` with no case ready and blocks as a sender on `q.pushc`;
* `accept v` — `goqueue` takes the oldest blocked sender's element
  (`case e, ok := <-pushc`), the completed `Push` bumps the counters;
* `deliver v` — a `Pop` call receives the armed element
  (`case popc <- next` on the actor side) and decrements `size`;
* `swallow v` — `closeOnce(q.pushc)`'s receive case fires against the
  oldest blocked sender: the element is discarded, the blocked `Push`
  completes successfully and bumps the counters, `pushc` stays open;
* `closeSig` — `closeOnce(q.pushc)` takes its `default` branch and closes
  `pushc` (possible only when no sender is blocked on it);
* `actorCloseRecv` — `goqueue` observes that `pushc` is closed and sets
  its local `pushc` to nil;
* `shutdownSig` — `Queue.Shutdown` closes `q.shutdown`;
* `actorStop` — `goqueue` takes `case <-q.shutdown` and returns;
* `withdraw v` — a blocked `Push` wakes on `<-q.shutdown` and returns
  `ErrQueueShutdown` without its element entering the queue. -/
inductive Label (E : Type) where
  | offer (v : E)
  | accept (v : E)
  | deliver (v : E)
  | swallow (v : E)
  | closeSig
  | actorCloseRecv
  | shutdownSig
  | actorStop
  | withdraw (v : E)
deriving DecidableEq, Repr

/-- One labelled transition of the concurrent queue model. Each actor
event (`accept`, `deliver`, `actorCloseRecv`) is followed by the
post-`select` bookkeeping `postSwitch`, exactly as in `goqueue`'s loop. -/
inductive Step {E : Type} : Queue E → Label E → Queue E → Prop where
  | offer (q : Queue E) (v : E) :
      q.pushClosed = false → q.shutdown = false →
      Step q (.offer v) { q with senders := q.senders ++ [v] }
  | accept (q : Queue E) (v : E) (rest : List E) :
      q.done = false → q.actorPush = true → q.senders = v :: rest →
      Step q (.accept v)
        (postSwitch
          { q with senders := rest, backlog := q.backlog ++ [v],
                   size := q.size + 1, total := q.total + 1 })
  | deliver (q : Queue E) (v : E) :
      q.done = false → q.pending = some v →
      Step q (.deliver v)
        (postSwitch { q with pending := none, size := q.size - 1 })
  | swallow (q : Queue E) (v : E) (rest : List E) :
      q.pushClosed = false → q.senders = v :: rest →
      Step q (.swallow v)
        { q with senders := rest, size := q.size + 1, total := q.total + 1 }
  | closeSig (q : Queue E) :
      q.pushClosed = false → q.senders = [] →
      Step q .closeSig { q with pushClosed := true }
  | actorCloseRecv (q : Queue E) :
      q.done = false → q.actorPush = true → q.pushClosed = true →
      Step q .actorCloseRecv (postSwitch { q with actorPush := false })
  | shutdownSig (q : Queue E) :
      q.shutdown = false →
      Step q .shutdownSig { q with shutdown := true }
  | actorStop (q : Queue E) :
      q.done = false → q.shutdown = true →
      Step q .actorStop { q with done := true }
  | withdraw (q : Queue E) (v : E) (s1 s2 : List E) :
      q.shutdown = true → q.senders = s1 ++ v :: s2 →
      Step q (.withdraw v) { q with senders := s1 ++ s2 }

/-- A finite execution: the reflexive-transitive closure of `Step` along a
list of labels. -/
inductive Steps {E : Type} : Queue E → List (Label E) → Queue E → Prop where
  | nil (q : Queue E) : Steps q [] q
  | cons {q q1 q2 : Queue E} {l : Label E} {tr : List (Label E)} :
      Step q l q1 → Steps q1 tr q2 → Steps q (l :: tr) q2

/-- Values accepted into the backlog by the actor, in acceptance order. -/
def accepted {E : Type} (tr : List (Label E)) : List E :=
  tr.filterMap fun l =>
    match l with
    | .accept v => some v
    | _ => none

/-- Values handed to consumers by `Pop`, in delivery order. -/
def delivered {E : Type} (tr : List (Label E)) : List E :=
  tr.filterMap fun l =>
    match l with
    | .deliver v => some v
    | _ => none

/-- Values received and discarded by `closeOnce(q.pushc)`. -/
def swallowed {E : Type} (tr : List (Label E)) : List E :=
  tr.filterMap fun l =>
    match l with
    | .swallow v => some v
    | _ => none

/-- Values whose `Push` call returned a nil error: those accepted by the
actor and those swallowed by `closeOnce` (the sender cannot tell the two
rendezvous apart), in completion order. -/
def pushedOk {E : Type} (tr : List (Label E)) : List E :=
  tr.filterMap fun l =>
    match l with
    | .accept v => some v
    | .swallow v => some v
    | _ => none

/-- The elements owned by the actor and not yet delivered: the armed
element, if any, followed by the backlog. -/
def inFlight {E : Type} (q : Queue E) : List E :=
  q.pending.toList ++ q.backlog

theorem postSwitch_shutdown {E : Type} (q : Queue E) :
    (postSwitch q).shutdown = q.shutdown := by
  unfold postSwitch
  rcases hb : q.backlog with _ | ⟨x, r⟩ <;> rcases hp : q.pending with _ | v <;>
    simp [hb, hp] <;> split <;> rfl

theorem postSwitch_pushClosed {E : Type} (q : Queue E) :
    (postSwitch q).pushClosed = q.pushClosed := by
  unfold postSwitch
  rcases hb : q.backlog with _ | ⟨x, r⟩ <;> rcases hp : q.pending with _ | v <;>
    simp [hb, hp] <;> split <;> rfl

theorem postSwitch_senders {E : Type} (q : Queue E) :
    (postSwitch q).senders = q.senders := by
  unfold postSwitch
  rcases hb : q.backlog with _ | ⟨x, r⟩ <;> rcases hp : q.pending with _ | v <;>
    simp [hb, hp] <;> split <;> rfl

theorem postSwitch_size {E : Type} (q : Queue E) :
    (postSwitch q).size = q.size := by
  unfold postSwitch
  rcases hb : q.backlog with _ | ⟨x, r⟩ <;> rcases hp : q.pending with _ | v <;>
    simp [hb, hp] <;> split <;> rfl

theorem postSwitch_total {E : Type} (q : Queue E) :
    (postSwitch q).total = q.total := by
  unfold postSwitch
  rcases hb : q.backlog with _ | ⟨x, r⟩ <;> rcases hp : q.pending with _ | v <;>
    simp [hb, hp] <;> split <;> rfl

theorem postSwitch_actorPush {E : Type} (q : Queue E) :
    (postSwitch q).actorPush = q.actorPush := by
  unfold postSwitch
  rcases hb : q.backlog with _ | ⟨x, r⟩ <;> rcases hp : q.pending with _ | v <;>
    simp [hb, hp] <;> split <;> rfl

theorem inFlight_postSwitch {E : Type} (q : Queue E) :
    inFlight (postSwitch q) = inFlight q := by
  unfold postSwitch inFlight
  rcases hb : q.backlog with _ | ⟨x, r⟩ <;> rcases hp : q.pending with _ | v <;>
    simp [hb, hp] <;> split <;> simp_all

theorem postSwitch_done_cases {E : Type} (q : Queue E) :
    (postSwitch q).done = true → q.done = true ∨ inFlight q = [] := by
  unfold postSwitch inFlight
  rcases hb : q.backlog with _ | ⟨x, r⟩ <;> rcases hp : q.pending with _ | v <;>
    simp [hb, hp] <;> split <;> simp_all

theorem steps_flow {E : Type} {q q' : Queue E} {tr : List (Label E)}
    (h : Steps q tr q') :
    delivered tr ++ inFlight q' = inFlight q ++ accepted tr := by
  induction h with
  | nil q => simp [delivered, accepted]
  | cons s _ ih =>
    cases s with
    | offer v h1 h2 =>
      simpa [delivered, accepted, inFlight] using ih
    | accept v rest h1 h2 h3 =>
      rw [inFlight_postSwitch] at ih
      simp only [inFlight] at ih
      simp only [delivered, accepted, List.filterMap_cons, inFlight] at ih ⊢
      rw [ih]
      simp
    | deliver v h1 h2 =>
      rw [inFlight_postSwitch] at ih
      simp only [inFlight, h2] at ih ⊢
      simp only [delivered, accepted, List.filterMap_cons] at ih ⊢
      simp only [Option.toList_none, List.nil_append] at ih
      simp [ih]
    | swallow v rest h1 h2 =>
      simpa [delivered, accepted, inFlight] using ih
    | closeSig h1 h2 =>
      simpa [delivered, accepted, inFlight] using ih
    | actorCloseRecv h1 h2 h3 =>
      rw [inFlight_postSwitch] at ih
      simpa [delivered, accepted, inFlight] using ih
    | shutdownSig h1 =>
      simpa [delivered, accepted, inFlight] using ih
    | actorStop h1 h2 =>
      simpa [delivered, accepted, inFlight] using ih
    | withdraw v s1 s2 h1 h2 =>
      simpa [delivered, accepted, inFlight] using ih

theorem steps_counters {E : Type} {q q' : Queue E} {tr : List (Label E)}
    (h : Steps q tr q') :
    q'.total = q.total + ((pushedOk tr).length : Int) ∧
      q'.size = q.size + ((pushedOk tr).length : Int) -
        ((delivered tr).length : Int) := by
  induction h with
  | nil q => simp [pushedOk, delivered]
  | cons s _ ih =>
    obtain ⟨iht, ihs⟩ := ih
    cases s <;>
      simp only [pushedOk, delivered, List.filterMap_cons, postSwitch_total,
        postSwitch_size, List.length_cons] at iht ihs ⊢ <;>
      constructor <;> omega

theorem steps_shutdown_stable {E : Type} {q q' : Queue E}
    {tr : List (Label E)} (h : Steps q tr q')
    (hn : Label.shutdownSig ∉ tr) : q'.shutdown = q.shutdown := by
  induction h with
  | nil q => rfl
  | cons s _ ih =>
    rw [List.mem_cons, not_or] at hn
    cases s <;>
      simp_all [postSwitch_shutdown]

/-- The actor exits only through shutdown or with nothing left to
deliver. -/
def DoneInv {E : Type} (q : Queue E) : Prop :=
  q.done = true → q.shutdown = true ∨ inFlight q = []

theorem step_doneInv {E : Type} {q q' : Queue E} {l : Label E}
    (s : Step q l q') (hd : DoneInv q) : DoneInv q' := by
  cases s with
  | offer v h1 h2 =>
    intro h; exact (hd h).imp id id
  | accept v rest h1 h2 h3 =>
    intro h
    rcases postSwitch_done_cases _ h with h' | h'
    · simp_all
    · right; rw [inFlight_postSwitch]; exact h'
  | deliver v h1 h2 =>
    intro h
    rcases postSwitch_done_cases _ h with h' | h'
    · simp_all
    · right; rw [inFlight_postSwitch]; exact h'
  | swallow v rest h1 h2 =>
    intro h; exact (hd h).imp id id
  | closeSig h1 h2 =>
    intro h; exact (hd h).imp id id
  | actorCloseRecv h1 h2 h3 =>
    intro h
    rcases postSwitch_done_cases _ h with h' | h'
    · simp_all
    · right; rw [inFlight_postSwitch]; exact h'
  | shutdownSig h1 =>
    intro _; left; rfl
  | actorStop h1 h2 =>
    intro _; left; exact h2
  | withdraw v s1 s2 h1 h2 =>
    intro h; exact (hd h).imp id id

theorem steps_doneInv {E : Type} {q q' : Queue E} {tr : List (Label E)}
    (h : Steps q tr q') (hd : DoneInv q) : DoneInv q' := by
  induction h with
  | nil q => exact hd
  | cons s _ ih => exact ih (step_doneInv s hd)

theorem step_total_mono {E : Type} {q q' : Queue E} {l : Label E}
    (s : Step q l q') : q.total ≤ q'.total := by
  cases s <;> simp [postSwitch_total] <;> omega

theorem pushedOk_eq_accepted {E : Type} {tr : List (Label E)}
    (h : swallowed tr = []) : pushedOk tr = accepted tr := by
  induction tr with
  | nil => rfl
  | cons l tr ih =>
    cases l <;>
      simp_all [pushedOk, accepted, swallowed, List.filterMap_cons]

theorem pushedOk_length {E : Type} (tr : List (Label E)) :
    (pushedOk tr).length = (accepted tr).length + (swallowed tr).length := by
  induction tr with
  | nil => rfl
  | cons l tr ih =>
    cases l <;>
      simp_all [pushedOk, accepted, swallowed, List.filterMap_cons] <;> omega

/-- The quiescent state of a queue that has accepted `t` pushes in total
and still holds the elements `xs` (oldest first): the head of `xs` is
armed on `popc`, the rest is the actor's backlog. `New E = midState 0 []`,
and every successful quiescent push or pop moves between such states. -/
def midState {E : Type} (t : Int) (xs : List E) : Queue E :=
  { backlog := xs.tail, pending := xs.head?, senders := [],
    actorPush := true, pushClosed := false, shutdown := false, done := false,
    size := (xs.length : Int), total := t }

theorem push_midState {E : Type} (t : Int) (ys : List E) (x : E) :
    (midState t ys).Push liveCtx x = [(.ok, midState (t + 1) (ys ++ [x]))] := by
  cases ys <;>
    simp [Queue.Push, liveCtx, midState, settle, postSwitch, Queue.mk.injEq] <;>
    push_cast <;> ring

theorem pushesFrom_midState {E : Type} (t : Int) (ys xs : List E) :
    pushesFrom (midState t ys) xs =
      some (midState (t + (xs.length : Int)) (ys ++ xs)) := by
  induction xs generalizing t ys with
  | nil => simp [pushesFrom]
  | cons x xs ih =>
    rw [pushesFrom, push_midState]
    simp only [ih, List.append_assoc, List.singleton_append, List.length_cons]
    congr 2
    push_cast
    ring

theorem pop_midState {E : Type} [Inhabited E] (t : Int) (x : E)
    (xs : List E) :
    (midState t (x :: xs)).Pop liveCtx = [((x, true), midState t xs)] := by
  cases xs <;>
    simp [Queue.Pop, liveCtx, midState, settle, postSwitch, Queue.mk.injEq] <;>
    push_cast <;> ring

theorem popsFrom_midState {E : Type} [Inhabited E] (t : Int) (xs : List E) :
    popsFrom (midState t xs) xs.length =
      some (xs.map (fun x => (x, true)), midState t []) := by
  induction xs with
  | nil => simp [popsFrom]
  | cons x xs ih => simp [popsFrom, pop_midState, ih]

/-- C1 (FIFO delivery): starting from a fresh queue, after a sequence of
`Push` calls for the values `xs` — each of which has acceptance as its
only possible outcome, with no `Shutdown` interleaved — the subsequent
`xs.length` `Pop` calls each have exactly one possible outcome, namely
successive elements of `xs` in push order, each returned exactly once with
`open = true`. -/
theorem fifo_delivery {E : Type} [Inhabited E] (xs : List E) :
    (pushesFrom (New E) xs).bind (fun q => popsFrom q xs.length) =
      some (xs.map (fun x => (x, true)), midState (xs.length : Int) []) := by
  have h1 : New E = midState 0 [] := rfl
  rw [h1, pushesFrom_midState]
  simp [popsFrom_midState]

theorem settle_pushClosed {E : Type} (q : Queue E) :
    (settle q).pushClosed = q.pushClosed := by
  unfold settle
  split
  · rfl
  · split
    · rfl
    · split
      · exact postSwitch_pushClosed _
      · rfl

theorem settle_shutdown {E : Type} (q : Queue E) :
    (settle q).shutdown = q.shutdown := by
  unfold settle
  split
  · rfl
  · split
    · rfl
    · split
      · exact postSwitch_shutdown _
      · rfl

theorem settle_senders {E : Type} (q : Queue E) :
    (settle q).senders = q.senders := by
  unfold settle
  split
  · rfl
  · split
    · rfl
    · split
      · exact postSwitch_senders _
      · rfl

theorem settle_size {E : Type} (q : Queue E) :
    (settle q).size = q.size := by
  unfold settle
  split
  · rfl
  · split
    · rfl
    · split
      · exact postSwitch_size _
      · rfl

theorem settle_total {E : Type} (q : Queue E) :
    (settle q).total = q.total := by
  unfold settle
  split
  · rfl
  · split
    · rfl
    · split
      · exact postSwitch_total _
      · rfl

theorem shutdown_fields {E : Type} (q : Queue E) (h : q.shutdown = false) :
    (q.Shutdown).done = true ∧ (q.Shutdown).shutdown = true ∧
      (q.Shutdown).pushClosed = q.pushClosed ∧
      (q.Shutdown).backlog = q.backlog ∧
      (q.Shutdown).pending = q.pending ∧
      (q.Shutdown).size = q.size ∧ (q.Shutdown).total = q.total := by
  cases hd : q.done <;> simp [Queue.Shutdown, settle, h, hd]

/-- C3 (post-shutdown behaviour): on a queue that has just been shut down
(`Shutdown` newly signalled on a queue that was not producer-closed), a
`Push` with a live context has returning the `ErrQueueShutdown` sentinel
as its only possible outcome, and a `Pop` with any context whatsoever —
no matter how many elements remain queued — can only return the zero value
with `open = false`, leaving the state untouched; the remaining backlog
and armed element stay in the queue, never delivered. -/
theorem shutdown_push_pop {E : Type} [Inhabited E] (q : Queue E)
    (ctx : Ctx) (e : E) (hsd : q.shutdown = false)
    (hpc : q.pushClosed = false) (hctx : ctx.cancelled = false) :
    (q.Shutdown).Push ctx e = [(.err ErrQueueShutdown, q.Shutdown)] ∧
    (∀ ctx2 : Ctx, ∀ r ∈ (q.Shutdown).Pop ctx2,
      r = ((default, false), q.Shutdown)) ∧
    (q.Shutdown).backlog = q.backlog ∧ (q.Shutdown).pending = q.pending := by
  obtain ⟨hd, hs, hp, hb, hpd, _, _⟩ := shutdown_fields q hsd
  refine ⟨?_, ?_, hb, hpd⟩
  · rw [hpc] at hp
    simp [Queue.Push, hctx, hs, hp, hd]
  · intro ctx2 r hr
    cases hc : ctx2.cancelled <;> simp [Queue.Pop, hd, hs, hc] at hr <;>
      simp [hr]

theorem close_fields {E : Type} (q : Queue E) (hsn : q.senders = []) :
    (q.Close).pushClosed = true ∧ (q.Close).shutdown = q.shutdown := by
  cases hpc : q.pushClosed <;> simp [Queue.Close, hpc, hsn] <;>
    exact ⟨settle_pushClosed _, settle_shutdown _⟩

/-- C4 (push after close crashes): on a queue on which `Close` has been
called (with no `Push` blocked in flight at that moment, so `pushc` really
did get closed) and `Shutdown` has not been called, a `Push` with a live
context has exactly one possible outcome: the `select` commits to sending
on the closed `pushc` channel and the process panics — no error value is
returned. -/
theorem push_after_close_panics {E : Type} (q : Queue E) (ctx : Ctx)
    (e : E) (hctx : ctx.cancelled = false) (hsd : q.shutdown = false)
    (hsn : q.senders = []) :
    (q.Close).Push ctx e = [(.panicked, q.Close)] := by
  obtain ⟨h1, h2⟩ := close_fields q hsn
  rw [hsd] at h2
  simp [Queue.Push, hctx, h1, h2]

/-- C5 (cancelled push is atomic): a `Push` whose context is already
cancelled, on a queue that is neither shut down nor producer-closed,
either rendezvouses with the actor anyway (the context case lost the
nondeterministic `select`, the element is accepted) or — in every other
possible outcome, in particular whenever the element is not accepted —
returns exactly `ctxerr.E(ctx, ctx.Err())` and leaves the whole state
unchanged: same backlog, same `size`, same `total`. That error is the
`*ctxerr.Error` wrapping the context's `Canceled`/`DeadlineExceeded`
cause, annotated with the context's diagnostic attributes, and that
outcome is always among the possible ones. -/
theorem cancelled_push_atomic {E : Type} (q : Queue E) (ctx : Ctx) (e : E)
    (hctx : ctx.cancelled = true) (hsd : q.shutdown = false)
    (hpc : q.pushClosed = false) :
    ((.err (ctxerr.E [.ctx ctx, .err ctx.err]), q) ∈ q.Push ctx e) ∧
    (∀ r ∈ q.Push ctx e, r.1 = .ok ∨
      r = (.err (ctxerr.E [.ctx ctx, .err ctx.err]), q)) ∧
    ctxerr.E [.ctx ctx, .err ctx.err] =
      .ctxError "" "" ctx.attrs ctx.err ∧
    (ctx.err = .canceled ∨ ctx.err = .deadlineExceeded) := by
  refine ⟨?_, ?_, rfl, ?_⟩
  · simp [Queue.Push, hctx]
  · intro r hr
    cases hq : (q.actorPush && !q.done) <;>
      simp [Queue.Push, hctx, hsd, hpc, hq] at hr
    · exact Or.inr hr
    · rcases hr with hr | hr
      · exact Or.inr hr
      · exact Or.inl (by rw [hr])
  · cases hdl : ctx.deadline <;> simp [Ctx.err, hdl]

/-- C6 (close-then-drain): push three elements, then `Close`; the next
three `Pop` calls each have a unique outcome returning the three elements
in order with `open = true`, and a fourth `Pop` immediately (its outcome
list is again a singleton, no case blocks) returns the zero value with
`open = false`: the dispatch actor has terminated (`done = true` in the
final state), having exited once producer-closed and drained. -/
theorem close_then_drain {E : Type} [Inhabited E] (a b c : E) :
    ((pushesFrom (New E) [a, b, c]).map Queue.Close).bind
        (fun q => popsFrom q 4) =
      some ([(a, true), (b, true), (c, true), (default, false)],
        { backlog := [], pending := none, senders := [], actorPush := false,
          pushClosed := true, shutdown := false, done := true,
          size := 0, total := 3 }) := by
  simp [pushesFrom, popsFrom, Queue.Push, Queue.Pop, Queue.Close, New,
    liveCtx, settle, postSwitch]

theorem pop_after_done {E : Type} [Inhabited E] (q : Queue E)
    (hd : q.done = true) :
    ∀ ctx2 : Ctx, ∀ r ∈ q.Pop ctx2, r = ((default, false), q) := by
  intro ctx2 r hr
  cases hc : ctx2.cancelled <;> cases hs : q.shutdown <;>
    simp [Queue.Pop, hd, hc, hs] at hr <;> simp [hr]

theorem close_not_done {E : Type} (q : Queue E) (hd : q.done = false)
    (hsd : q.shutdown = false) (hsn : q.senders = [])
    (hne : inFlight q ≠ []) :
    (q.Close).done = false ∧ (q.Close).shutdown = false ∧
      (q.Close).pushClosed = true := by
  cases hpc : q.pushClosed
  case false =>
    have hcl : q.Close = settle { q with pushClosed := true } := by
      simp [Queue.Close, hpc, hsn]
    rw [hcl]
    cases hap : q.actorPush
    case false =>
      unfold settle
      simp [hd, hsd, hap]
    case true =>
      have hps : settle { q with actorPush := true, pushClosed := true } =
          postSwitch { q with pushClosed := true, actorPush := false } := by
        unfold settle
        simp [hd, hsd]
      rw [hps]
      refine ⟨?_, by simp [postSwitch_shutdown, hsd],
        by simp [postSwitch_pushClosed]⟩
      cases hh : (postSwitch
          { q with pushClosed := true, actorPush := false }).done
      case false => rfl
      case true =>
        exfalso
        rcases postSwitch_done_cases _ hh with h' | h'
        · simp only at h'
          exact absurd h' (by simp [hd])
        · exact hne (by simpa [inFlight] using h')
  case true =>
    refine ⟨?_, ?_, ?_⟩ <;> simp [Queue.Close, hpc, hd, hsd]

/-- C7 (WaitEmpty semantics): `WaitEmpty` first calls `Close`. (1) On a
queue that still holds elements, with no call in flight and an
already-cancelled context, it returns `false`, having additionally called
`Shutdown`, and it returns only once the dispatch actor has exited
(`done = true` in the returned state); the queue is left shut down, so
any subsequent `Pop` can only return the zero value with `open = false`.
(2) On a producer-closed, fully drained queue (actor already exited) with
a live context it returns `true`, again with the actor exited. -/
theorem waitEmpty_semantics {E : Type} [Inhabited E] :
    (∀ (q : Queue E) (ctx : Ctx), ctx.cancelled = true → q.done = false →
      q.shutdown = false → q.senders = [] → inFlight q ≠ [] →
      ∃ qf, q.WaitEmpty ctx = some (false, qf) ∧ qf.done = true ∧
        qf.shutdown = true ∧
        ∀ ctx2 : Ctx, ∀ r ∈ qf.Pop ctx2, r.1 = (default, false)) ∧
    (∀ (q : Queue E) (ctx : Ctx), ctx.cancelled = false →
      q.pushClosed = true → q.done = true →
      q.WaitEmpty ctx = some (true, q)) := by
  constructor
  · intro q ctx hctx hd hsd hsn hne
    obtain ⟨h1, h2, _⟩ := close_not_done q hd hsd hsn hne
    obtain ⟨hd2, hs2, _, _, _, _, _⟩ := shutdown_fields (q.Close) h2
    refine ⟨(q.Close).Shutdown, ?_, hd2, hs2, ?_⟩
    · simp [Queue.WaitEmpty, h1, hctx, hd2]
    · intro ctx2 r hr
      rw [pop_after_done _ hd2 ctx2 r hr]
  · intro q ctx hctx hpc hd
    simp [Queue.WaitEmpty, Queue.Close, hpc, hd]

theorem close_done_preserved {E : Type} (q : Queue E)
    (hd : q.done = true) : (q.Close).done = true := by
  cases hpc : q.pushClosed
  · rcases hsn : q.senders with _ | ⟨v, rest⟩ <;>
      simp [Queue.Close, hpc, hsn, settle, hd]
  · simp [Queue.Close, hpc, hd]

/-- C9 (implicit: WaitEmpty after a prior Shutdown returns true): calling
`Shutdown` makes the dispatch actor exit and raise `done`, so a later
`WaitEmpty` with a live context finds `done` already raised and returns
`true`. In particular — second conjunct, witnessed concretely — a `true`
result does not imply the queue drained: a queue still holding accepted,
undelivered elements in its backlog yields `WaitEmpty = true` after a
prior `Shutdown`, the abandoned backlog still present in the final
state. -/
theorem waitEmpty_after_shutdown {E : Type} :
    (∀ (q : Queue E) (ctx : Ctx), ctx.cancelled = false →
      q.shutdown = false →
      ∃ qf, (q.Shutdown).WaitEmpty ctx = some (true, qf)) ∧
    (∃ q : Queue Nat, q.backlog ≠ [] ∧ ∃ qf : Queue Nat,
      (q.Shutdown).WaitEmpty liveCtx = some (true, qf) ∧
        qf.backlog ≠ []) := by
  constructor
  · intro q ctx hctx hsd
    obtain ⟨hd, _⟩ := shutdown_fields q hsd
    have h1 : ((q.Shutdown).Close).done = true :=
      close_done_preserved _ hd
    exact ⟨(q.Shutdown).Close, by simp [Queue.WaitEmpty, h1]⟩
  · refine ⟨⟨[2], some 1, [], true, false, false, false, 2, 2⟩, by decide,
      ⟨[2], some 1, [], true, true, true, true, 2, 2⟩, by decide, by decide⟩

/-- C2 counterexample trace: a `Push(7)` blocks as a sender, `Close` runs
`closeOnce(q.pushc)` whose receive case fires against it (the push
completes successfully, the element is discarded, `pushc` stays open), a
second `Close` call then really closes `pushc`, and the actor exits
closed-and-empty. -/
def swallowTrace : List (Label Nat) :=
  [.offer 7, .swallow 7, .closeSig, .actorCloseRecv]

/-- C2 refutation: an execution of the model with no `Shutdown` in which
the queue terminates gracefully (`done = true`, reached via
producer-closed and empty), exactly one `Push` returned success (the
value 7, with `total = 1` accounted), and yet nothing was ever delivered:
the multiset of values received differs from the multiset of successfully
pushed values, because `closeOnce` received and silently dropped the
element of a `Push` that was in flight when `Close` was called. -/
theorem close_swallows_inflight_push :
    ∃ q : Queue Nat, Steps (New Nat) swallowTrace q ∧ q.done = true ∧
      q.total = 1 ∧ Label.shutdownSig ∉ swallowTrace ∧
      pushedOk swallowTrace = [7] ∧ delivered swallowTrace = [] ∧
      Multiset.ofList (delivered swallowTrace) ≠
        Multiset.ofList (pushedOk swallowTrace) := by
  refine ⟨_, Steps.cons (Step.offer _ 7 rfl rfl)
      (Steps.cons (Step.swallow _ 7 [] rfl rfl)
        (Steps.cons (Step.closeSig _ rfl rfl)
          (Steps.cons (Step.actorCloseRecv _ rfl rfl rfl) (Steps.nil _)))),
    rfl, rfl, by decide, rfl, rfl, by decide⟩

/-- C2 (amended): with `P` producers each pushing `K` elements and `C`
consumers draining until the queue is closed and empty (no `Shutdown`),
*and provided `Close` is never invoked while a `Push` is still blocked in
flight* (no element is received by `closeOnce`), every element whose
`Push` returned success is delivered exactly once: the delivered sequence
equals the accepted sequence, so the multiset of values received equals
the multiset of values pushed, of size `P * K`. -/
theorem no_loss_without_inflight_close {E : Type} {tr : List (Label E)}
    {q : Queue E} (h : Steps (New E) tr q)
    (hns : Label.shutdownSig ∉ tr) (hsw : swallowed tr = [])
    (hdone : q.done = true) :
    delivered tr = pushedOk tr ∧
    Multiset.ofList (delivered tr) = Multiset.ofList (pushedOk tr) ∧
    (∀ P K : Nat, (pushedOk tr).length = P * K →
      (delivered tr).length = P * K) := by
  have hsd : q.shutdown = false := by
    have := steps_shutdown_stable h hns
    simpa [New] using this
  have hdi : DoneInv q := steps_doneInv h (by intro hh; simp [New] at hh)
  have hif : inFlight q = [] := by
    rcases hdi hdone with h' | h'
    · rw [hsd] at h'
      exact absurd h' (by simp)
    · exact h'
  have hflow := steps_flow h
  rw [hif] at hflow
  have hnew : inFlight (New E) = [] := rfl
  rw [hnew] at hflow
  simp only [List.append_nil, List.nil_append] at hflow
  have hok : pushedOk tr = accepted tr := pushedOk_eq_accepted hsw
  have hmain : delivered tr = pushedOk tr := by rw [hflow, hok]
  refine ⟨hmain, by rw [hmain], ?_⟩
  intro P K hPK
  rw [congrArg List.length hmain]
  exact hPK

/-- C8 (accounting invariant): along any execution of the model from a
fresh queue with no `Shutdown`, `total` equals the number of `Push` calls
that returned success, `size` equals that count minus the number of
delivered `Pop` calls, `size` is never negative, `Size()` returns both
counters as a pure (non-blocking) read of the state, and no single step
ever decreases `total`. -/
theorem accounting_invariant {E : Type} {tr : List (Label E)}
    {q : Queue E} (h : Steps (New E) tr q)
    (hns : Label.shutdownSig ∉ tr) :
    q.total = ((pushedOk tr).length : Int) ∧
    q.size = ((pushedOk tr).length : Int) -
      ((delivered tr).length : Int) ∧
    0 ≤ q.size ∧
    q.Size = (q.size, q.total) ∧
    (∀ (q1 q2 : Queue E) (l : Label E), Step q1 l q2 →
      q1.total ≤ q2.total) := by
  obtain ⟨ht, hs⟩ := steps_counters h
  have hflow := steps_flow h
  have hlen : (delivered tr).length + (inFlight q).length =
      (accepted tr).length := by
    have := congrArg List.length hflow
    simpa [New, inFlight] using this
  have hle : (delivered tr).length ≤ (pushedOk tr).length := by
    rw [pushedOk_length]
    omega
  have ht' : q.total = ((pushedOk tr).length : Int) := by
    simpa [New] using ht
  have hs' : q.size = ((pushedOk tr).length : Int) -
      ((delivered tr).length : Int) := by
    simpa [New] using hs
  refine ⟨ht', hs', by omega, rfl, ?_⟩
  intro q1 q2 l s
  exact step_total_mono s

/-- Witness for C3 at a concrete queue holding two undelivered
elements. -/
theorem shutdown_push_pop_witness :
    ((⟨[2], some 1, [], true, false, false, false, 2, 2⟩ :
        Queue Nat).Shutdown).Push liveCtx 9 =
      [(.err ErrQueueShutdown,
        (⟨[2], some 1, [], true, false, false, false, 2, 2⟩ :
          Queue Nat).Shutdown)] :=
  (shutdown_push_pop _ liveCtx 9 rfl rfl rfl).1

/-- Witness for C4 at a concrete fresh queue. -/
theorem push_after_close_panics_witness :
    ((⟨[], none, [], true, false, false, false, 0, 0⟩ :
        Queue Nat).Close).Push liveCtx 3 =
      [(.panicked,
        (⟨[], none, [], true, false, false, false, 0, 0⟩ :
          Queue Nat).Close)] :=
  push_after_close_panics _ liveCtx 3 rfl rfl rfl

/-- Witness for C5 at a fresh queue and a cancelled context carrying one
diagnostic attribute: the annotated cancellation error, wrapping the
`Canceled` cause with the context's attributes, is a possible outcome. -/
theorem cancelled_push_atomic_witness :
    (PushResult.err (GoErr.ctxError "" "" [("module", "m")] .canceled),
        New Nat) ∈
      (New Nat).Push ⟨true, false, [("module", "m")]⟩ 4 :=
  (cancelled_push_atomic (New Nat) ⟨true, false, [("module", "m")]⟩ 4
    rfl rfl rfl).1

/-- Witness for C7: both scenarios at concrete states — a queue holding
two elements with a cancelled context, and a closed drained queue with a
live context. -/
theorem waitEmpty_semantics_witness :
    (∃ qf : Queue Nat,
      (⟨[2], some 1, [], true, false, false, false, 2, 2⟩ :
          Queue Nat).WaitEmpty ⟨true, false, []⟩ = some (false, qf) ∧
        qf.done = true ∧ qf.shutdown = true ∧
        ∀ ctx2 : Ctx, ∀ r ∈ qf.Pop ctx2, r.1 = (default, false)) ∧
    (⟨[], none, [], false, true, false, true, 0, 3⟩ :
        Queue Nat).WaitEmpty liveCtx =
      some (true, ⟨[], none, [], false, true, false, true, 0, 3⟩) := by
  constructor
  · exact (waitEmpty_semantics (E := Nat)).1 _ _ rfl rfl rfl rfl (by decide)
  · exact (waitEmpty_semantics (E := Nat)).2 _ _ rfl rfl rfl

/-- Witness for C9 at a concrete fresh queue that is shut down and then
waited on with a live context. -/
theorem waitEmpty_after_shutdown_witness :
    ∃ qf : Queue Nat,
      ((⟨[], none, [], true, false, false, false, 0, 0⟩ :
        Queue Nat).Shutdown).WaitEmpty liveCtx = some (true, qf) :=
  (waitEmpty_after_shutdown (E := Nat)).1 _ liveCtx rfl rfl

/-- Witness for C2's amended theorem at a concrete one-producer,
one-consumer, no-swallow run that drains and closes. -/
theorem no_loss_without_inflight_close_witness :
    delivered [Label.offer 5, Label.accept 5, Label.deliver 5,
        Label.closeSig, Label.actorCloseRecv] =
      pushedOk [Label.offer (5 : Nat), Label.accept 5, Label.deliver 5,
        Label.closeSig, Label.actorCloseRecv] := by
  have hsteps := Steps.cons (Step.offer (New Nat) 5 rfl rfl)
    (Steps.cons (Step.accept _ 5 [] rfl rfl rfl)
      (Steps.cons (Step.deliver _ 5 rfl rfl)
        (Steps.cons (Step.closeSig _ rfl rfl)
          (Steps.cons (Step.actorCloseRecv _ rfl rfl rfl) (Steps.nil _)))))
  exact (no_loss_without_inflight_close hsteps (by decide) rfl rfl).1

/-- Witness for C8 at a concrete two-step run (one push offered and
accepted). -/
theorem accounting_invariant_witness :
    ∃ q : Queue Nat,
      Steps (New Nat) [Label.offer 4, Label.accept 4] q ∧
        q.total =
          ((pushedOk ([Label.offer 4, Label.accept 4] :
            List (Label Nat))).length : Int) := by
  have hsteps := Steps.cons (Step.offer (New Nat) 4 rfl rfl)
    (Steps.cons (Step.accept _ 4 [] rfl rfl rfl) (Steps.nil _))
  exact ⟨_, hsteps, (accounting_invariant hsteps (by decide)).1⟩

end syncq

namespace buffer

/-- Models the uint32 round-up-to-a-power-of-two helper `powerOf2` in
`ring.go` (the Stanford bit hack): a uint32 is a `Nat` below `2 ^ 32`;
the initial decrement and the final increment wrap modulo `2 ^ 32`, the
or-with-shift chain stays below `2 ^ 32` by itself. -/
def powerOf2 (v : Nat) : Nat :=
  let v1 := (v + (2 ^ 32 - 1)) % 2 ^ 32
  let v2 := v1 ||| (v1 >>> 1)
  let v3 := v2 ||| (v2 >>> 2)
  let v4 := v3 ||| (v3 >>> 4)
  let v5 := v4 ||| (v4 >>> 8)
  let v6 := v5 ||| (v5 >>> 16)
  (v6 + 1) % 2 ^ 32

/-- State of a `buffer.RingBuffer[T]`; `end_` is the Go field `end`
(a Lean keyword). All uint32 fields are `Nat`s below `2 ^ 32`. -/
structure RingBuffer (T : Type) where
  s : List T
  cap : Nat
  modMask : Nat
  start : Nat
  end_ : Nat
  full : Bool
deriving Repr

/-- Models `NewRingBuffer`: `make([]T, capacity)` is a list of `capacity`
zero values, and `capacity - 1` is computed in uint32 arithmetic, so for
`capacity = 0` the mask wraps around to `2 ^ 32 - 1`. -/
def NewRingBuffer (T : Type) [Inhabited T] (n : Nat) : RingBuffer T :=
  let capacity := powerOf2 n
  { s := List.replicate capacity default, cap := capacity,
    modMask := (capacity + (2 ^ 32 - 1)) % 2 ^ 32,
    start := 0, end_ := 0, full := false }

/-- Models `RingBuffer.Push`: return false when full, otherwise write `v`
at index `end`, advance `end` by one masked with `modMask`, and recompute
`full`. The Go write `l.s[slot] = v` panics when `slot` is out of range of
the backing slice; that crash is modelled as `none`. -/
def RingBuffer.Push {T : Type} (l : RingBuffer T) (v : T) :
    Option (Bool × RingBuffer T) :=
  if l.full then some (false, l)
  else
    let slot := l.end_
    if slot < l.s.length then
      let e1 := ((l.end_ + 1) % 2 ^ 32) &&& l.modMask
      some (true,
        { l with s := l.s.set slot v, end_ := e1, full := l.start == e1 })
    else none

theorem powerOf2_zero : powerOf2 0 = 0 := by decide

/-- C10: `NewRingBuffer(0)` computes capacity `powerOf2(0) = 0` (the
uint32 decrement wraps to `2 ^ 32 - 1` and the final increment wraps back
to `0`) while the modulus mask wraps to `2 ^ 32 - 1`; its backing slice is
empty, so the first `Push` call indexes position 0 of an empty slice and
crashes (`none`) instead of returning `false`. -/
theorem newRingBuffer_zero_push_crashes (T : Type) [Inhabited T] (v : T) :
    (NewRingBuffer T 0).cap = 0 ∧
    (NewRingBuffer T 0).modMask = 2 ^ 32 - 1 ∧
    (NewRingBuffer T 0).s = [] ∧
    (NewRingBuffer T 0).Push v = none := by
  refine ⟨?_, ?_, ?_, ?_⟩
  · simp [NewRingBuffer, powerOf2_zero]
  · simp [NewRingBuffer, powerOf2_zero]
  · simp [NewRingBuffer, powerOf2_zero]
  · simp [RingBuffer.Push, NewRingBuffer, powerOf2_zero]

end buffer

end srvsrv
